import Mathlib

/-!
Shallow embedding of the seat-reservation core of a resource-booking backend
(FastAPI + SQLAlchemy + PostgreSQL), together with proofs about its operations.

Tables are modelled as lists of rows; UUID primary keys are modelled as Nat,
timestamps as Int.  A SQLAlchemy query `db.query(T).filter(p).first()` is
modelled as List.find?, `.all()` as List.filter, `.order_by(k)` as an
insertion sort by k (SQL guarantees some sorted permutation of the result set;
the model fixes one).  `db.commit()` enforces the one DB-level constraint that
is relevant to the modelled write paths: the unique index
idx_one_confirmed_booking_per_seat on bookings(seat_id) restricted to rows
with status = confirmed (migration cb5aaa1eb954; the older one_active_booking
index was dropped by migration b6d43d51938a).  A commit that violates it
raises IntegrityError, which the service code catches, rolling the
transaction back and surfacing HTTP 500.

Every operation returns its HTTP-level outcome (status code and detail
string, exactly the strings of the source) together with the post-commit
database state, so that atomicity and frame properties are statements about
the returned state.
-/

/-- Row of the resources table (app/models/resource.py). -/
structure Resource where
  id : Nat
  name : String
  rtype : String
  meta_data : String
deriving Repr, DecidableEq

/-- Row of the slots table (app/models/slot.py). -/
structure Slot where
  id : Nat
  resource_id : Nat
  start_time : Int
  end_time : Int
  capacity : Nat
  version : Nat
deriving Repr, DecidableEq

/-- Row of the seats table (app/models/seat.py).  status ranges over the
strings of SeatStatus: available, booked, reserved, maintenance. -/
structure Seat where
  id : Nat
  slot_id : Nat
  seat_number : String
  status : String
  seat_type : String
deriving Repr, DecidableEq

/-- Row of the bookings table (app/models/booking.py).  status ranges over
the strings of BookingStatus: pending, confirmed, cancelled.  Note that the
model has NO slot_id column: a booking references its slot only through its
seat. -/
structure Booking where
  id : Nat
  user_id : Nat
  seat_id : Nat
  status : String
  created_at : Int
deriving Repr, DecidableEq

instance {ε α : Type} [DecidableEq ε] [DecidableEq α] : DecidableEq (Except ε α) :=
  fun x y =>
    match x, y with
    | .ok a, .ok b =>
      if h : a = b then .isTrue (by rw [h]) else .isFalse (by intro hc; cases hc; exact h rfl)
    | .ok _, .error _ => .isFalse (by intro hc; cases hc)
    | .error _, .ok _ => .isFalse (by intro hc; cases hc)
    | .error e, .error f =>
      if h : e = f then .isTrue (by rw [h]) else .isFalse (by intro hc; cases hc; exact h rfl)

/-- The database: the four tables of the core.  (The users table is not
modelled: every modelled call comes through the authentication dependency,
so its user_id references an existing user and the bookings.user_id foreign
key cannot fire.) -/
structure DB where
  resources : List Resource
  slots : List Slot
  seats : List Seat
  bookings : List Booking
deriving Repr, DecidableEq

/-- Well-formedness of a database state: primary keys are unique.  This is
what PostgreSQL guarantees for every committed state. -/
def DB.wf (db : DB) : Prop :=
  (db.resources.map Resource.id).Nodup ∧ (db.slots.map Slot.id).Nodup ∧
    (db.seats.map Seat.id).Nodup ∧ (db.bookings.map Booking.id).Nodup

instance (db : DB) : Decidable db.wf := by
  unfold DB.wf; infer_instance

/-- Outcome of a write operation of the booking service: either an HTTP
error (status code, detail) or a payload, together with the database state
after commit/rollback and the list of seat-row ids on which the operation
executed SELECT ... FOR UPDATE (with_for_update in the source). -/
structure ReserveOut where
  outcome : Except (Nat × String) Booking
  db : DB
  locks : List Nat
deriving Repr, DecidableEq

/-- Does the bookings table already hold a confirmed booking for this seat?
This is exactly the predicate enforced by the unique index
idx_one_confirmed_booking_per_seat at commit time. -/
def confirmedForSeat (db : DB) (seat_id : Nat) : Bool :=
  db.bookings.any (fun b => b.seat_id == seat_id && b.status == "confirmed")

/-- Continuation of create_booking after the past-slot check (lines 54-80
of app/services/booking.py): the duplicate-per-slot check, the insert and
the commit. -/
def create_booking_tail (db : DB) (user_id seat_id : Nat) (now : Int) (newId : Nat)
    (seat : Seat) : ReserveOut :=
  if db.bookings.any (fun b =>
      b.user_id == user_id && b.status == "confirmed" &&
        db.seats.any (fun s2 => s2.id == b.seat_id && s2.slot_id == seat.slot_id)) then
    ⟨.error (409, "You already have a booking for this time slot"), db, []⟩
  else if confirmedForSeat db seat_id then
    -- IntegrityError on commit: rollback, HTTP 500
    ⟨.error (500, "Failed to create booking"), db, []⟩
  else
    let nb : Booking := ⟨newId, user_id, seat_id, "confirmed", now⟩
    ⟨.ok nb, { db with bookings := db.bookings ++ [nb] }, []⟩

/-- BookingService.create_booking (app/services/booking.py, lines 18-90).
This is the function the POST /bookings/ route calls.  Checks, in source
order: seat exists (else 404), seat.status is available (else 409), the
owning slot — when it exists — has not started (else 400; the check is
written `if slot and slot.start_time <= now`, so a dangling slot_id skips
it), the user holds no confirmed booking for a seat of the same slot (else
409).  It then inserts a confirmed booking and commits.  It never updates
the seat row and never locks it (the seat is read with a plain query, no
with_for_update).  If the commit violates the confirmed-per-seat unique
index, the except-branch rolls back and returns 500. -/
def create_booking (db : DB) (user_id seat_id : Nat) (now : Int) (newId : Nat) :
    ReserveOut :=
  match db.seats.find? (fun s => s.id == seat_id) with
  | none => ⟨.error (404, "Seat not found"), db, []⟩
  | some seat =>
    if seat.status != "available" then
      ⟨.error (409, "Seat is not available"), db, []⟩
    else
      match db.slots.find? (fun sl => sl.id == seat.slot_id) with
      | some slot =>
        if slot.start_time ≤ now then
          ⟨.error (400, "Cannot book seats for past time slots"), db, []⟩
        else create_booking_tail db user_id seat_id now newId seat
      | none => create_booking_tail db user_id seat_id now newId seat

/-- Continuation of book_seat_with_lock after the past-slot check (lines
85-114 of app/services/seat_service.py): the duplicate-per-slot check, the
status flip, the insert and the commit. -/
def book_seat_tail (db : DB) (seat_id user_id : Nat) (now : Int) (newId : Nat)
    (seat : Seat) (locked : List Nat) : ReserveOut :=
  if db.bookings.any (fun b =>
      b.user_id == user_id && b.status == "confirmed" &&
        db.seats.any (fun s2 => s2.id == b.seat_id && s2.slot_id == seat.slot_id)) then
    ⟨.error (409, "You already have a booking for this time slot"), db, locked⟩
  else if confirmedForSeat db seat_id then
    -- IntegrityError on commit: the rollback undoes the status flip
    -- and the insert together
    ⟨.error (500, "Failed to book seat"), db, locked⟩
  else
    let nb : Booking := ⟨newId, user_id, seat_id, "confirmed", now⟩
    ⟨.ok nb,
      { db with
        seats := db.seats.map (fun s =>
          if s.id == seat_id then { s with status := "booked" } else s),
        bookings := db.bookings ++ [nb] },
      locked⟩

/-- SeatService.book_seat_with_lock (app/services/seat_service.py, lines
49-124).  Same checks as create_booking, but the seat row is read with
with_for_update (a blocking exclusive row lock, recorded in locks), and on
success the seat status is set to booked in the same transaction as the
booking insert.  No route or service calls this function. -/
def book_seat_with_lock (db : DB) (seat_id user_id : Nat) (now : Int) (newId : Nat) :
    ReserveOut :=
  let locked := (db.seats.filter (fun s => s.id == seat_id)).map Seat.id
  match db.seats.find? (fun s => s.id == seat_id) with
  | none => ⟨.error (404, "Seat not found"), db, locked⟩
  | some seat =>
    if seat.status != "available" then
      ⟨.error (409, "Seat is not available"), db, locked⟩
    else
      match db.slots.find? (fun sl => sl.id == seat.slot_id) with
      | some slot =>
        if slot.start_time ≤ now then
          ⟨.error (400, "Cannot book seats for past time slots"), db, locked⟩
        else book_seat_tail db seat_id user_id now newId seat locked
      | none => book_seat_tail db seat_id user_id now newId seat locked

/-- SeatService.release_seat (app/services/seat_service.py, lines 126-166).
Requires the seat to exist (else 404) and be booked (else 400); sets its
status back to available. -/
def release_seat (db : DB) (seat_id : Nat) : (Except (Nat × String) Seat) × DB :=
  match db.seats.find? (fun s => s.id == seat_id) with
  | none => (.error (404, "Seat not found"), db)
  | some seat =>
    if seat.status != "booked" then
      (.error (400, "Seat is not currently booked"), db)
    else
      (.ok { seat with status := "available" },
        { db with
          seats := db.seats.map (fun s =>
            if s.id == seat_id then { s with status := "available" } else s) })

/-- BookingService.cancel_booking (app/services/booking.py, lines 208-262).
Every path of the source raises a non-HTTP Python exception, so every call
surfaces as HTTP 500 "Internal server error" (the detail the API route
attaches) with the transaction rolled back:
the module imports fastapi.status only under the name http_status, so on
the not-found path (line 226) and the already-cancelled path (line 233)
evaluating status.HTTP_404_NOT_FOUND / status.HTTP_400_BAD_REQUEST raises
NameError; on the remaining path, line 238 reads booking.slot_id, but the
Booking model has no slot_id attribute, raising AttributeError before the
status update at line 247 is reached.  Each exception lands in the
except-Exception handler, whose own raise (line 259) evaluates
status.HTTP_500_INTERNAL_SERVER_ERROR and raises NameError again, which
propagates to the route handler and becomes a 500 response. -/
def cancel_booking (db : DB) (booking_id user_id : Nat) :
    (Except (Nat × String) Booking) × DB :=
  match db.bookings.find? (fun b => b.id == booking_id && b.user_id == user_id) with
  | none =>
    -- NameError raising the 404
    (.error (500, "Internal server error"), db)
  | some b =>
    if b.status == "cancelled" then
      -- NameError raising the 400
      (.error (500, "Internal server error"), db)
    else
      -- AttributeError: booking.slot_id does not exist
      (.error (500, "Internal server error"), db)

/-- Lexicographic comparison of character lists, modelling the ordering SQL
uses for ORDER BY on a text column (byte order of the C collation agrees
with code-point order on the ASCII seat labels of this schema). -/
def charListLe : List Char → List Char → Bool
  | [], _ => true
  | _ :: _, [] => false
  | a :: as, b :: bs =>
    if a < b then true else if b < a then false else charListLe as bs

theorem charListLe_total : ∀ a b, charListLe a b = true ∨ charListLe b a = true
  | [], _ => .inl rfl
  | _ :: _, [] => .inr rfl
  | a :: as, b :: bs => by
    rcases lt_trichotomy a b with h | h | h
    · left; simp [charListLe, h]
    · subst h
      simpa [charListLe, lt_irrefl] using charListLe_total as bs
    · right; simp [charListLe, h]

theorem charListLe_trans :
    ∀ a b c, charListLe a b = true → charListLe b c = true → charListLe a c = true
  | [], _, _ => by intro _ _; rfl
  | a :: as, [], c => by intro hab; exact absurd hab (by simp [charListLe])
  | a :: as, b :: bs, [] => by
    intro _ hbc; exact absurd hbc (by simp [charListLe])
  | a :: as, b :: bs, c :: cs => by
    intro hab hbc
    rcases lt_trichotomy a b with h1 | h1 | h1
    · rcases lt_trichotomy b c with h2 | h2 | h2
      · simp [charListLe, lt_trans h1 h2]
      · subst h2; simp [charListLe, h1]
      · exact absurd hbc (by simp [charListLe, h2, lt_asymm h2])
    · subst h1
      rcases lt_trichotomy a c with h2 | h2 | h2
      · simp [charListLe, h2]
      · subst h2
        have has : charListLe as bs = true := by
          simpa [charListLe, lt_irrefl] using hab
        have hbs : charListLe bs cs = true := by
          simpa [charListLe, lt_irrefl] using hbc
        simpa [charListLe, lt_irrefl] using charListLe_trans as bs cs has hbs
      · exact absurd hbc (by simp [charListLe, h2, lt_asymm h2])
    · exact absurd hab (by simp [charListLe, h1, lt_asymm h1])

/-- Comparison used to model ORDER BY seats.seat_number ASC. -/
def seatNumberLe (s1 s2 : Seat) : Prop :=
  charListLe s1.seat_number.data s2.seat_number.data = true

instance : DecidableRel seatNumberLe := fun _ _ =>
  inferInstanceAs (Decidable (_ = true))

instance : IsTotal Seat seatNumberLe :=
  ⟨fun s1 s2 => charListLe_total s1.seat_number.data s2.seat_number.data⟩

instance : IsTrans Seat seatNumberLe :=
  ⟨fun _ _ _ h1 h2 => charListLe_trans _ _ _ h1 h2⟩

/-- SeatService.get_available_seats_for_slot (app/services/seat_service.py,
lines 18-47).  Selects the seats of the slot with status available,
restricted to seat_type when the parameter is truthy (in Python,
`if seat_type:` is false both for None and for the empty string), ordered
by seat_number ascending.  Read-only: the state is returned unchanged. -/
def get_available_seats_for_slot (db : DB) (slot_id : Nat)
    (seat_type : Option String) : List Seat × DB :=
  let base := db.seats.filter (fun s => s.slot_id == slot_id && s.status == "available")
  let filtered :=
    match seat_type with
    | none => base
    | some t => if t == "" then base else base.filter (fun s => s.seat_type == t)
  (filtered.insertionSort seatNumberLe, db)

/-- A row of the result set of the LEFT OUTER JOIN of slots with seats on
Slot.id == Seat.slot_id (ResourceService.get_resource_with_slots,
app/services/resource.py lines 108-117): the slot, and the joined seat or
NULL. -/
abbrev JoinRow := Slot × Option Seat

/-- A grouped slot: the slot together with the seats collected for it.  This
is one value of the slots_dict dictionary of the source (a slot and its
seat list). -/
abbrev SlotGroup := Slot × List Seat

/-- LEFT OUTER JOIN of slots with seats on Slot.id == Seat.slot_id: every
slot contributes one row per matching seat, or a single row with a NULL
seat when no seat matches. -/
def outerJoin (slots : List Slot) (seats : List Seat) : List JoinRow :=
  (slots.map (fun sl =>
    let ss := seats.filter (fun s => s.slot_id == sl.id)
    if ss.isEmpty then [(sl, none)] else ss.map (fun s => (sl, some s)))).flatten

/-- Sort key of the joined seat column: its seat_number, or NULL.  Postgres
sorts NULLs last under ASC, so none is the greatest key. -/
def optCharListLe (a b : Option (List Char)) : Bool :=
  match b with
  | none => true
  | some bb =>
    match a with
    | none => false
    | some aa => charListLe aa bb

theorem optCharListLe_total :
    ∀ a b, optCharListLe a b = true ∨ optCharListLe b a = true
  | _, none => .inl rfl
  | none, some _ => .inr rfl
  | some a, some b => charListLe_total a b

theorem optCharListLe_trans :
    ∀ a b c, optCharListLe a b = true → optCharListLe b c = true →
      optCharListLe a c = true
  | _, _, none => fun _ _ => rfl
  | a, none, some _ => fun _ h => absurd h (by simp [optCharListLe])
  | none, some _, some _ => fun h _ => absurd h (by simp [optCharListLe])
  | some a, some b, some c => fun h1 h2 => charListLe_trans a b c h1 h2

/-- Key of the seat column of a join row. -/
def rowSeatKey (os : Option Seat) : Option (List Char) :=
  os.map (fun s => s.seat_number.data)

/-- The ordering ORDER BY Slot.start_time, Seat.seat_number imposes on the
joined rows. -/
def rowLe (r1 r2 : JoinRow) : Prop :=
  r1.1.start_time < r2.1.start_time ∨
    (r1.1.start_time = r2.1.start_time ∧
      optCharListLe (rowSeatKey r1.2) (rowSeatKey r2.2) = true)

instance : DecidableRel rowLe := fun r1 r2 => by
  unfold rowLe; infer_instance

instance : IsTotal JoinRow rowLe :=
  ⟨fun r1 r2 => by
    rcases lt_trichotomy r1.1.start_time r2.1.start_time with h | h | h
    · exact .inl (.inl h)
    · rcases optCharListLe_total (rowSeatKey r1.2) (rowSeatKey r2.2) with h2 | h2
      · exact .inl (.inr ⟨h, h2⟩)
      · exact .inr (.inr ⟨h.symm, h2⟩)
    · exact .inr (.inl h)⟩

instance : IsTrans JoinRow rowLe :=
  ⟨fun r1 r2 r3 h1 h2 => by
    rcases h1 with h1 | ⟨e1, k1⟩
    · rcases h2 with h2 | ⟨e2, _⟩
      · exact .inl (lt_trans h1 h2)
      · exact .inl (e2 ▸ h1)
    · rcases h2 with h2 | ⟨e2, k2⟩
      · exact .inl (e1 ▸ h2)
      · exact .inr ⟨e1.trans e2, optCharListLe_trans _ _ _ k1 k2⟩⟩

/-- One step of the grouping loop of the source (lines 122-131): if the
dictionary already has an entry for the slot id of the row, the joined seat
(when not NULL) is appended to that entry, otherwise a new entry is created
at the end with the slot and the seat (or an empty list when the seat is
NULL).  Python dictionaries preserve insertion order, so the dictionary is
an association list. -/
def insertRow (acc : List SlotGroup) (r : JoinRow) : List SlotGroup :=
  if acc.any (fun g => g.1.id == r.1.id) then
    acc.map (fun g => if g.1.id == r.1.id then (g.1, g.2 ++ r.2.toList) else g)
  else
    acc ++ [(r.1, r.2.toList)]

/-- The grouping loop over all rows. -/
def groupRows (rows : List JoinRow) : List SlotGroup :=
  rows.foldl insertRow []

/-- ResourceService.get_resource_with_slots (app/services/resource.py,
lines 77-171).  Returns none when the resource does not exist (the API
route turns none into HTTP 404).  Otherwise: takes the rows of the outer
join of the slots of the resource whose start_time is at or after
start_date (defaulting to the current time) with their seats, ordered by
(start_time, seat_number); keeps, when end_date was given, only rows whose
slot ends by end_date (the source applies this filter in Python after the
query, lines 119-120); groups the rows by slot; and returns the groups
that have at least one seat with status available, each carrying its full
seat list.  (The query built at lines 98-105 is dead code: it is never
executed.)  Read-only: the state is returned unchanged. -/
def get_resource_with_slots (db : DB) (resource_id : Nat)
    (start_date end_date : Option Int) (now : Int) :
    (Option (Resource × List SlotGroup)) × DB :=
  match db.resources.find? (fun r => r.id == resource_id) with
  | none => (none, db)
  | some res =>
    let eff := start_date.getD now
    let slotsF := db.slots.filter (fun sl =>
      sl.resource_id == resource_id && eff ≤ sl.start_time)
    let rows := (outerJoin slotsF db.seats).insertionSort rowLe
    let rows2 := match end_date with
      | some ed => rows.filter (fun r => r.1.end_time ≤ ed)
      | none => rows
    let groups := groupRows rows2
    (some (res,
      groups.filter (fun g => !(g.2.filter (fun s => s.status == "available")).isEmpty)),
      db)

/-! Support lemmas about the join/sort/group pipeline of
get_resource_with_slots. -/

theorem mem_outerJoin {slots : List Slot} {seats : List Seat} {r : JoinRow}
    (h : r ∈ outerJoin slots seats) :
    r.1 ∈ slots ∧ ∀ s, r.2 = some s → s ∈ seats ∧ s.slot_id = r.1.id := by
  unfold outerJoin at h
  rw [List.mem_flatten] at h
  obtain ⟨block, hb, hr⟩ := h
  rw [List.mem_map] at hb
  obtain ⟨sl, hsl, rfl⟩ := hb
  dsimp only at hr
  by_cases he : (seats.filter (fun s => s.slot_id == sl.id)).isEmpty
  · rw [if_pos he, List.mem_singleton] at hr
    subst hr
    exact ⟨hsl, fun s hs => by cases hs⟩
  · rw [if_neg he, List.mem_map] at hr
    obtain ⟨s, hs, rfl⟩ := hr
    have hm := List.mem_filter.mp hs
    refine ⟨hsl, fun s' hs' => ?_⟩
    cases hs'
    exact ⟨hm.1, by simpa using hm.2⟩

theorem insertRow_fst {acc : List SlotGroup} {r : JoinRow} {g : SlotGroup}
    (hg : g ∈ insertRow acc r) :
    (∃ g0 ∈ acc, g.1 = g0.1) ∨ g.1 = r.1 := by
  unfold insertRow at hg
  by_cases hc : (acc.any (fun g => g.1.id == r.1.id)) = true
  · rw [if_pos hc, List.mem_map] at hg
    obtain ⟨g0, hg0, rfl⟩ := hg
    refine .inl ⟨g0, hg0, ?_⟩
    by_cases h : (g0.1.id == r.1.id) = true
    · rw [if_pos h]
    · rw [if_neg h]
  · rw [if_neg hc, List.mem_append] at hg
    rcases hg with hg | hg
    · exact .inl ⟨g, hg, rfl⟩
    · rw [List.mem_singleton] at hg
      subst hg
      exact .inr rfl

theorem insertRow_seats {acc : List SlotGroup} {r : JoinRow} {g : SlotGroup}
    (hg : g ∈ insertRow acc r) {s : Seat} (hs : s ∈ g.2) :
    (∃ g0 ∈ acc, s ∈ g0.2 ∧ g0.1.id = g.1.id) ∨
      (r.2 = some s ∧ r.1.id = g.1.id) := by
  unfold insertRow at hg
  by_cases hc : (acc.any (fun g => g.1.id == r.1.id)) = true
  · rw [if_pos hc, List.mem_map] at hg
    obtain ⟨g0, hg0, rfl⟩ := hg
    by_cases h : (g0.1.id == r.1.id) = true
    · rw [if_pos h] at hs ⊢
      rw [List.mem_append] at hs
      rcases hs with hs | hs
      · exact .inl ⟨g0, hg0, hs, rfl⟩
      · refine .inr ⟨?_, ?_⟩
        · cases hr2 : r.2 with
          | none => rw [hr2] at hs; cases hs
          | some s2 =>
            rw [hr2] at hs
            rw [Option.toList_some, List.mem_singleton] at hs
            rw [hs]
        · have hid : g0.1.id = r.1.id := by simpa using h
          exact hid.symm
    · rw [if_neg h] at hs ⊢
      exact .inl ⟨g0, hg0, hs, rfl⟩
  · rw [if_neg hc, List.mem_append] at hg
    rcases hg with hg | hg
    · exact .inl ⟨g, hg, hs, rfl⟩
    · rw [List.mem_singleton] at hg
      subst hg
      refine .inr ⟨?_, rfl⟩
      cases hr2 : r.2 with
      | none => rw [hr2] at hs; cases hs
      | some s2 =>
        rw [hr2] at hs
        rw [Option.toList_some, List.mem_singleton] at hs
        rw [hs]

theorem foldl_insertRow_fst :
    ∀ (rows : List JoinRow) (acc : List SlotGroup) (g : SlotGroup),
      g ∈ rows.foldl insertRow acc →
      (∃ g0 ∈ acc, g.1 = g0.1) ∨ ∃ r ∈ rows, g.1 = r.1
  | [], _, g, h => .inl ⟨g, h, rfl⟩
  | r :: rs, acc, g, h => by
    rcases foldl_insertRow_fst rs (insertRow acc r) g h with ⟨g0, hg0, he⟩ | ⟨r', hr', he⟩
    · rcases insertRow_fst hg0 with ⟨g1, hg1, he1⟩ | he1
      · exact .inl ⟨g1, hg1, (he.trans he1)⟩
      · exact .inr ⟨r, List.mem_cons_self r rs, he.trans he1⟩
    · exact .inr ⟨r', List.mem_cons_of_mem r hr', he⟩

theorem groupRows_fst {rows : List JoinRow} {g : SlotGroup}
    (h : g ∈ groupRows rows) : ∃ r ∈ rows, g.1 = r.1 := by
  rcases foldl_insertRow_fst rows [] g h with ⟨g0, hg0, _⟩ | h2
  · cases hg0
  · exact h2

theorem foldl_insertRow_seats :
    ∀ (rows : List JoinRow) (acc : List SlotGroup) (g : SlotGroup) (s : Seat),
      g ∈ rows.foldl insertRow acc → s ∈ g.2 →
      (∃ g0 ∈ acc, s ∈ g0.2 ∧ g0.1.id = g.1.id) ∨
        ∃ r ∈ rows, r.2 = some s ∧ r.1.id = g.1.id
  | [], _, g, _, h, hs => .inl ⟨g, h, hs, rfl⟩
  | r :: rs, acc, g, s, h, hs => by
    rcases foldl_insertRow_seats rs (insertRow acc r) g s h hs with
      ⟨g0, hg0, hsg0, hid⟩ | ⟨r', hr', he⟩
    · rcases insertRow_seats hg0 hsg0 with ⟨g1, hg1, hsg1, hid1⟩ | ⟨he, hid1⟩
      · exact .inl ⟨g1, hg1, hsg1, hid1.trans hid⟩
      · exact .inr ⟨r, List.mem_cons_self r rs, he, hid1.trans hid⟩
    · exact .inr ⟨r', List.mem_cons_of_mem r hr', he⟩

theorem groupRows_seats {rows : List JoinRow} {g : SlotGroup} {s : Seat}
    (h : g ∈ groupRows rows) (hs : s ∈ g.2) :
    ∃ r ∈ rows, r.2 = some s ∧ r.1.id = g.1.id := by
  rcases foldl_insertRow_seats rows [] g s h hs with ⟨g0, hg0, _⟩ | h2
  · cases hg0
  · exact h2

theorem rowLe_start {r1 r2 : JoinRow} (h : rowLe r1 r2) :
    r1.1.start_time ≤ r2.1.start_time := by
  rcases h with h | ⟨e, _⟩
  · exact le_of_lt h
  · exact le_of_eq e

/-- Invariant of the grouping loop used to prove that groups come out in
ascending slot start_time: the accumulator is sorted and every group
precedes every remaining row. -/
def accOrd (acc : List SlotGroup) (rem : List JoinRow) : Prop :=
  acc.Pairwise (fun g1 g2 => g1.1.start_time ≤ g2.1.start_time) ∧
    ∀ g ∈ acc, ∀ r ∈ rem, g.1.start_time ≤ r.1.start_time

theorem accOrd_insert {acc : List SlotGroup} {r : JoinRow} {rem : List JoinRow}
    (h : accOrd acc (r :: rem)) (hr : ∀ r' ∈ rem, rowLe r r') :
    accOrd (insertRow acc r) rem := by
  obtain ⟨hp, hfut⟩ := h
  unfold insertRow
  by_cases hc : (acc.any (fun g => g.1.id == r.1.id)) = true
  · rw [if_pos hc]
    constructor
    · rw [List.pairwise_map]
      refine hp.imp_of_mem ?_
      intro g1 g2 _ _ hle
      by_cases h1 : (g1.1.id == r.1.id) = true <;>
        by_cases h2 : (g2.1.id == r.1.id) = true <;>
          simp only [h1, h2, if_pos, if_neg, if_true, if_false] <;> exact hle
    · intro g hg r' hr'
      rw [List.mem_map] at hg
      obtain ⟨g0, hg0, rfl⟩ := hg
      have := hfut g0 hg0 r' (List.mem_cons_of_mem r hr')
      by_cases h0 : (g0.1.id == r.1.id) = true <;>
        simp only [h0, if_true, if_false, if_pos, if_neg] <;> exact this
  · rw [if_neg hc]
    constructor
    · rw [List.pairwise_append]
      refine ⟨hp, List.pairwise_singleton _ _, ?_⟩
      intro g1 hg1 g2 hg2
      rw [List.mem_singleton] at hg2
      subst hg2
      exact hfut g1 hg1 r (List.mem_cons_self r rem)
    · intro g hg r' hr'
      rw [List.mem_append] at hg
      rcases hg with hg | hg
      · exact hfut g hg r' (List.mem_cons_of_mem r hr')
      · rw [List.mem_singleton] at hg
        subst hg
        exact rowLe_start (hr r' hr')

theorem foldl_insertRow_ord :
    ∀ (rows : List JoinRow) (acc : List SlotGroup),
      rows.Pairwise rowLe → accOrd acc rows →
      (rows.foldl insertRow acc).Pairwise
        (fun g1 g2 => g1.1.start_time ≤ g2.1.start_time)
  | [], _, _, h => h.1
  | r :: rs, acc, hp, h => by
    have hp' := List.pairwise_cons.mp hp
    exact foldl_insertRow_ord rs (insertRow acc r) hp'.2 (accOrd_insert h hp'.1)

theorem groupRows_sorted {rows : List JoinRow} (h : rows.Pairwise rowLe) :
    (groupRows rows).Pairwise (fun g1 g2 => g1.1.start_time ≤ g2.1.start_time) :=
  foldl_insertRow_ord rows [] h ⟨List.Pairwise.nil, by intro g hg; cases hg⟩

/-- Invariant of the grouping loop used to prove that each group collects
its seats in ascending seat_number: every group is sorted, and every seat
already collected precedes the joined seat of every remaining row for the
same slot id. -/
def accOk (acc : List SlotGroup) (rem : List JoinRow) : Prop :=
  ∀ g ∈ acc, g.2.Pairwise seatNumberLe ∧
    ∀ s ∈ g.2, ∀ r ∈ rem, r.1.id = g.1.id → ∀ s2, r.2 = some s2 → seatNumberLe s s2

theorem rowLe_seat {r r' : JoinRow} (hle : rowLe r r') (heq : r'.1 = r.1)
    {s s2 : Seat} (h2 : r.2 = some s) (h2' : r'.2 = some s2) :
    seatNumberLe s s2 := by
  rcases hle with hlt | ⟨_, hk⟩
  · rw [heq] at hlt
    exact absurd hlt (lt_irrefl _)
  · rw [h2, h2'] at hk
    exact hk

theorem accOk_insert {acc : List SlotGroup} {r : JoinRow} {rem : List JoinRow}
    (h : accOk acc (r :: rem)) (hr : ∀ r' ∈ rem, rowLe r r')
    (hkey : ∀ r' ∈ rem, r'.1.id = r.1.id → r'.1 = r.1) :
    accOk (insertRow acc r) rem := by
  unfold insertRow
  by_cases hc : (acc.any (fun g => g.1.id == r.1.id)) = true
  · rw [if_pos hc]
    intro g hg
    rw [List.mem_map] at hg
    obtain ⟨g0, hg0, rfl⟩ := hg
    obtain ⟨hg0p, hg0f⟩ := h g0 hg0
    by_cases h0 : (g0.1.id == r.1.id) = true
    · rw [if_pos h0]
      have hid0 : g0.1.id = r.1.id := by simpa using h0
      constructor
      · rw [List.pairwise_append]
        refine ⟨hg0p, ?_, ?_⟩
        · cases hr2 : r.2 <;> simp
        · intro s1 hs1 s2 hs2
          cases hr2 : r.2 with
          | none => rw [hr2] at hs2; cases hs2
          | some s2' =>
            rw [hr2, Option.toList_some, List.mem_singleton] at hs2
            subst hs2
            exact hg0f s1 hs1 r (List.mem_cons_self r rem) hid0.symm s2 hr2
      · intro s hs r' hr' hid' s2 h2'
        dsimp only at hs hid'
        rw [List.mem_append] at hs
        rcases hs with hs | hs
        · exact hg0f s hs r' (List.mem_cons_of_mem r hr') hid' s2 h2'
        · cases hr2 : r.2 with
          | none => rw [hr2] at hs; cases hs
          | some s' =>
            rw [hr2, Option.toList_some, List.mem_singleton] at hs
            subst hs
            have hkeq : r'.1 = r.1 := hkey r' hr' (hid'.trans hid0)
            exact rowLe_seat (hr r' hr') hkeq hr2 h2'
    · rw [if_neg h0]
      refine ⟨hg0p, ?_⟩
      intro s hs r' hr' hid' s2 h2'
      exact hg0f s hs r' (List.mem_cons_of_mem r hr') hid' s2 h2'
  · rw [if_neg hc]
    intro g hg
    rw [List.mem_append] at hg
    rcases hg with hg | hg
    · obtain ⟨hgp, hgf⟩ := h g hg
      refine ⟨hgp, ?_⟩
      intro s hs r' hr' hid' s2 h2'
      exact hgf s hs r' (List.mem_cons_of_mem r hr') hid' s2 h2'
    · rw [List.mem_singleton] at hg
      subst hg
      constructor
      · cases hr2 : r.2 <;> simp
      · intro s hs r' hr' hid' s2 h2'
        dsimp only at hs hid'
        cases hr2 : r.2 with
        | none => rw [hr2] at hs; cases hs
        | some s' =>
          rw [hr2, Option.toList_some, List.mem_singleton] at hs
          subst hs
          exact rowLe_seat (hr r' hr') (hkey r' hr' hid') hr2 h2'

theorem foldl_insertRow_seats_sorted :
    ∀ (rows : List JoinRow) (acc : List SlotGroup),
      rows.Pairwise rowLe →
      (∀ r ∈ rows, ∀ r' ∈ rows, r'.1.id = r.1.id → r'.1 = r.1) →
      accOk acc rows →
      ∀ g ∈ rows.foldl insertRow acc, g.2.Pairwise seatNumberLe
  | [], _, _, _, h, g, hg => (h g hg).1
  | r :: rs, acc, hp, hkeys, h, g, hg => by
    have hp' := List.pairwise_cons.mp hp
    refine foldl_insertRow_seats_sorted rs (insertRow acc r) hp'.2 ?_ ?_ g hg
    · intro a ha a' ha'
      exact hkeys a (List.mem_cons_of_mem r ha) a' (List.mem_cons_of_mem r ha')
    · refine accOk_insert h hp'.1 ?_
      intro r' hr'
      exact hkeys r (List.mem_cons_self r rs) r' (List.mem_cons_of_mem r hr')

theorem groupRows_seats_sorted {rows : List JoinRow}
    (hp : rows.Pairwise rowLe)
    (hkeys : ∀ r ∈ rows, ∀ r' ∈ rows, r'.1.id = r.1.id → r'.1 = r.1) :
    ∀ g ∈ groupRows rows, g.2.Pairwise seatNumberLe :=
  foldl_insertRow_seats_sorted rows [] hp hkeys (fun g hg => by cases hg)

/-- Bridge lemma for get_resource_with_slots: properties of the grouped,
availability-filtered result, stated over an arbitrary row list rows2 that
comes from the outer join, is sorted, and whose slot ids are unambiguous. -/
theorem resource_groups_spec {slotsF : List Slot} {seats : List Seat}
    {rows2 : List JoinRow} {groups : List SlotGroup}
    (hgroups : groups = (groupRows rows2).filter
      (fun g => !(g.2.filter (fun s => s.status == "available")).isEmpty))
    (hmem : ∀ r ∈ rows2, r ∈ outerJoin slotsF seats)
    (hp : rows2.Pairwise rowLe)
    (hnd : (slotsF.map Slot.id).Nodup) :
    (∀ g ∈ groups, ∃ r ∈ rows2, g.1 = r.1) ∧
    (∀ g ∈ groups, ∃ s ∈ seats, s.slot_id = g.1.id ∧ s.status = "available") ∧
    groups.Pairwise (fun g1 g2 => g1.1.start_time ≤ g2.1.start_time) ∧
    ∀ g ∈ groups, g.2.Pairwise seatNumberLe := by
  have hkey : ∀ r ∈ rows2, ∀ r' ∈ rows2, r'.1.id = r.1.id → r'.1 = r.1 := by
    intro r hr r' hr' hid
    have h1 := (mem_outerJoin (hmem r hr)).1
    have h2 := (mem_outerJoin (hmem r' hr')).1
    exact List.inj_on_of_nodup_map hnd h2 h1 hid
  refine ⟨?_, ?_, ?_, ?_⟩
  · intro g hg
    exact groupRows_fst (List.mem_filter.mp (hgroups ▸ hg)).1
  · intro g hg
    have hg2 := List.mem_filter.mp (hgroups ▸ hg)
    have hne : g.2.filter (fun s => s.status == "available") ≠ [] := by
      intro hnil
      rw [hnil] at hg2
      simp at hg2
    obtain ⟨s, hs⟩ := List.exists_mem_of_ne_nil _ hne
    have hsm := List.mem_filter.mp hs
    obtain ⟨r, hr, hr2, hrid⟩ := groupRows_seats hg2.1 hsm.1
    have hoj := (mem_outerJoin (hmem r hr)).2 s hr2
    exact ⟨s, hoj.1, hoj.2.trans hrid, by simpa using hsm.2⟩
  · rw [hgroups]
    exact (groupRows_sorted hp).sublist (List.filter_sublist _)
  · intro g hg
    exact groupRows_seats_sorted hp hkey g (List.mem_filter.mp (hgroups ▸ hg)).1

/-- Claim C9: resourceWithOpenSlots(resource_id, start_date?, end_date?)
returns only slots with start_time at or after start_date (defaulting to
the call time) and, when end_date is given, end_time at or before
end_date; a slot appears only if it has at least one seat with status
available; slots are ordered by start_time ascending and each slot's
seats by seat_number ascending; and the call reports the resource as
absent (the route maps the none to HTTP 404) exactly when no resource with
resource_id exists. -/
theorem C9_resource_with_open_slots (db : DB) (rid : Nat)
    (sd ed : Option Int) (now : Int)
    (hnd : (db.slots.map Slot.id).Nodup) :
    ((get_resource_with_slots db rid sd ed now).1 = none ↔
      db.resources.find? (fun r => r.id == rid) = none) ∧
    ∀ res groups,
      (get_resource_with_slots db rid sd ed now).1 = some (res, groups) →
      (∀ g ∈ groups,
          sd.getD now ≤ g.1.start_time ∧
          (∀ e, ed = some e → g.1.end_time ≤ e) ∧
          ∃ s ∈ db.seats, s.slot_id = g.1.id ∧ s.status = "available") ∧
      groups.Pairwise (fun g1 g2 => g1.1.start_time ≤ g2.1.start_time) ∧
      ∀ g ∈ groups, g.2.Pairwise seatNumberLe := by
  unfold get_resource_with_slots
  cases hfind : db.resources.find? (fun r => r.id == rid) with
  | none =>
    refine ⟨by simp, ?_⟩
    intro res groups h
    simp at h
  | some res0 =>
    refine ⟨by simp, ?_⟩
    intro res groups h
    simp only [Prod.mk.injEq, Option.some.injEq] at h
    have hndF : ((db.slots.filter (fun sl =>
        sl.resource_id == rid && sd.getD now ≤ sl.start_time)).map Slot.id).Nodup :=
      ((List.filter_sublist db.slots).map Slot.id).nodup hnd
    have hrows_mem : ∀ r ∈ (outerJoin (db.slots.filter (fun sl =>
          sl.resource_id == rid && sd.getD now ≤ sl.start_time))
            db.seats).insertionSort rowLe,
        r ∈ outerJoin (db.slots.filter (fun sl =>
          sl.resource_id == rid && sd.getD now ≤ sl.start_time)) db.seats := by
      intro r hr
      exact (List.mem_insertionSort rowLe).mp hr
    have hstart : ∀ r ∈ outerJoin (db.slots.filter (fun sl =>
          sl.resource_id == rid && sd.getD now ≤ sl.start_time)) db.seats,
        sd.getD now ≤ r.1.start_time := by
      intro r hr
      have hslf := List.mem_filter.mp (mem_outerJoin hr).1
      have := hslf.2
      simp only [Bool.and_eq_true, decide_eq_true_eq] at this
      exact this.2
    have hpr : ((outerJoin (db.slots.filter (fun sl =>
          sl.resource_id == rid && sd.getD now ≤ sl.start_time))
            db.seats).insertionSort rowLe).Pairwise rowLe :=
      List.sorted_insertionSort rowLe _
    cases ed with
    | none =>
      obtain ⟨hsrc2, havail2, hord2, hseats2⟩ :=
        resource_groups_spec h.2.symm hrows_mem hpr hndF
      refine ⟨?_, hord2, hseats2⟩
      intro g hg
      obtain ⟨r, hr, hg1⟩ := hsrc2 g hg
      refine ⟨hg1 ▸ hstart r (hrows_mem r hr), ?_, havail2 g hg⟩
      intro e he
      cases he
    | some e =>
      have hmem2 : ∀ r ∈ ((outerJoin (db.slots.filter (fun sl =>
            sl.resource_id == rid && sd.getD now ≤ sl.start_time))
              db.seats).insertionSort rowLe).filter
                (fun r => r.1.end_time ≤ e),
          r ∈ outerJoin (db.slots.filter (fun sl =>
            sl.resource_id == rid && sd.getD now ≤ sl.start_time)) db.seats := by
        intro r hr
        exact hrows_mem r (List.mem_filter.mp hr).1
      obtain ⟨hsrc2, havail2, hord2, hseats2⟩ :=
        resource_groups_spec h.2.symm hmem2
          (hpr.sublist (List.filter_sublist _)) hndF
      refine ⟨?_, hord2, hseats2⟩
      intro g hg
      obtain ⟨r, hr, hg1⟩ := hsrc2 g hg
      refine ⟨hg1 ▸ hstart r (hmem2 r hr), ?_, havail2 g hg⟩
      intro e' he'
      cases he'
      have hre : r.1.end_time ≤ e := by
        have := (List.mem_filter.mp hr).2
        simpa using this
      exact hg1 ▸ hre

/-! Concrete database states used by the concrete theorems and witnesses
below. -/

/-- Two available seats of one future slot (relative to call time 5). -/
def dbTwoSeats : DB :=
  ⟨[⟨1000, "pool", "pool", ""⟩], [⟨100, 1000, 50, 60, 2, 0⟩],
    [⟨1, 100, "S01", "available", "standard"⟩,
     ⟨2, 100, "S02", "available", "standard"⟩], []⟩

/-- One future slot 100 (start 50) and one past slot 101 (start 3) relative
to call time 5; seat 1 available and already confirmed for user 10, seat 2
in maintenance, seat 3 available on the past slot, seat 4 available on slot
100. -/
def dbMix : DB :=
  ⟨[], [⟨100, 1, 50, 60, 2, 0⟩, ⟨101, 1, 3, 4, 1, 0⟩],
    [⟨1, 100, "A1", "available", "standard"⟩,
     ⟨2, 100, "A2", "maintenance", "standard"⟩,
     ⟨3, 101, "B1", "available", "standard"⟩,
     ⟨4, 100, "A3", "available", "standard"⟩],
    [⟨7, 10, 1, "confirmed", 0⟩]⟩

/-- A booked seat on a past slot (relative to call time 10). -/
def dbPastBooked : DB :=
  ⟨[], [⟨100, 1, 5, 6, 1, 0⟩], [⟨1, 100, "A1", "booked", "standard"⟩], []⟩

/-- An available seat on a past slot (relative to call time 10). -/
def dbPastAvail : DB :=
  ⟨[], [⟨100, 1, 5, 6, 1, 0⟩], [⟨1, 100, "A1", "available", "standard"⟩], []⟩

/-- An available seat whose slot_id (100) references no slot row. -/
def dbDangling : DB :=
  ⟨[], [], [⟨1, 100, "A1", "available", "standard"⟩], []⟩

/-- A confirmed booking (id 5, user 10) for a booked seat of a future slot
(relative to any call time below 50): the cancellable situation of the
spec. -/
def dbCancellable : DB :=
  ⟨[], [⟨100, 1, 50, 60, 1, 0⟩], [⟨1, 100, "A1", "booked", "standard"⟩],
    [⟨5, 10, 1, "confirmed", 0⟩]⟩

/-- One resource with a future slot (two seats, one available) and a past
slot, as seen at call time 8. -/
def dbResource : DB :=
  ⟨[⟨1, "court1", "court", ""⟩],
    [⟨100, 1, 10, 20, 2, 0⟩, ⟨101, 1, 5, 15, 2, 0⟩],
    [⟨1, 100, "A1", "available", "standard"⟩,
     ⟨2, 100, "A2", "booked", "standard"⟩],
    []⟩

/-! Claim theorems. -/

/-- Claim C1: the at-most-one-confirmed-booking-per-seat invariant is upheld
(here: by the unique index at commit), but a reserve of an already reserved
seat does NOT fail with Conflict: because create_booking never sets the
seat to booked, the second reserve passes the availability check and dies
only at commit on the unique index, surfacing as HTTP 500, not 409.  The
theorem evaluates the code on the failing input: user 10 reserves seat 1,
then user 11 reserves seat 1. -/
theorem C1_second_reserve_is_500_not_conflict :
    (create_booking dbTwoSeats 10 1 5 77).outcome =
      .ok ⟨77, 10, 1, "confirmed", 5⟩ ∧
    (create_booking ((create_booking dbTwoSeats 10 1 5 77).db) 11 1 6 78).outcome =
      .error (500, "Failed to create booking") ∧
    (create_booking ((create_booking dbTwoSeats 10 1 5 77).db) 11 1 6 78).outcome ≠
      .error (409, "Seat is not available") ∧
    ((create_booking ((create_booking dbTwoSeats 10 1 5 77).db) 11 1 6 78).db.bookings.filter
        (fun b => b.seat_id == 1 && b.status == "confirmed")).length = 1 := by
  decide

/-- Claim C2: a successful reserve through the API path (which calls
BookingService.create_booking) inserts the confirmed booking but does NOT
set the seat status to booked: the seats table is unchanged, so the seat
is still available afterwards.  The claimed both-effects-together behavior
is only implemented by the uncalled SeatService.book_seat_with_lock. -/
theorem C2_reserve_does_not_book_seat :
    (create_booking dbTwoSeats 10 1 5 77).outcome =
      .ok ⟨77, 10, 1, "confirmed", 5⟩ ∧
    (create_booking dbTwoSeats 10 1 5 77).db.seats = dbTwoSeats.seats ∧
    ((create_booking dbTwoSeats 10 1 5 77).db.seats.find?
        (fun s => s.id == 1)).map Seat.status = some "available" ∧
    (create_booking dbTwoSeats 10 1 5 77).db.bookings =
      [⟨77, 10, 1, "confirmed", 5⟩] := by
  decide

/-- Claim C3: the reserve path the API exposes (create_booking) reads the
seat with a plain query and acquires no row lock whatsoever: its
SELECT-FOR-UPDATE lock trace is empty on every input.  The locking
behavior the claim describes exists only in the uncalled
book_seat_with_lock. -/
theorem C3_reserve_acquires_no_lock (db : DB) (user_id seat_id : Nat)
    (now : Int) (newId : Nat) :
    (create_booking db user_id seat_id now newId).locks = [] := by
  have htail : ∀ seat, (create_booking_tail db user_id seat_id now newId seat).locks = [] := by
    intro seat
    unfold create_booking_tail
    split
    · rfl
    · split <;> rfl
  unfold create_booking
  split
  · rfl
  · split
    · rfl
    · split
      · split
        · rfl
        · exact htail _
      · exact htail _

/-- Claim C4: cancel_booking never behaves as specified: on every input it
surfaces HTTP 500 with the state unchanged, because its error paths
evaluate the undefined name status (NameError) and its main path reads the
nonexistent attribute booking.slot_id (AttributeError).  In particular a
confirmed future booking (the failing input dbCancellable, booking 5 of
user 10) is NOT cancellable. -/
theorem C4_cancel_never_succeeds (db : DB) (booking_id user_id : Nat) :
    (cancel_booking db booking_id user_id).1 =
      .error (500, "Internal server error") ∧
    (cancel_booking db booking_id user_id).2 = db := by
  unfold cancel_booking
  split
  · exact ⟨rfl, rfl⟩
  · split <;> exact ⟨rfl, rfl⟩

/-- Claim C7: cancel_booking modifies no Seat row and leaves every Booking
field other than status unchanged (with the C4 bug it in fact changes
nothing at all: every run rolls back). -/
theorem C7_cancel_frame (db : DB) (booking_id user_id : Nat) :
    (cancel_booking db booking_id user_id).2.seats = db.seats ∧
    (cancel_booking db booking_id user_id).2.bookings.map
        (fun b => (b.id, b.user_id, b.seat_id, b.created_at)) =
      db.bookings.map (fun b => (b.id, b.user_id, b.seat_id, b.created_at)) := by
  unfold cancel_booking
  split
  · exact ⟨rfl, rfl⟩
  · split <;> exact ⟨rfl, rfl⟩

/-- Helper: the tail of create_booking fails 409 when the
duplicate-per-slot query finds a confirmed booking of the user on the
slot. -/
theorem create_booking_tail_dup {db : DB} {user_id seat_id : Nat} {now : Int}
    {newId : Nat} {seat : Seat}
    (hdupb : (db.bookings.any (fun b =>
      b.user_id == user_id && b.status == "confirmed" &&
        db.seats.any (fun s2 => s2.id == b.seat_id && s2.slot_id == seat.slot_id))) = true) :
    create_booking_tail db user_id seat_id now newId seat =
      ⟨.error (409, "You already have a booking for this time slot"), db, []⟩ := by
  simp [create_booking_tail, hdupb]

/-- Helper: the tail of create_booking succeeds and appends the confirmed
booking when the duplicate query is empty and no confirmed booking for the
seat exists (so the commit passes the unique index). -/
theorem create_booking_tail_success {db : DB} {user_id seat_id : Nat} {now : Int}
    {newId : Nat} {seat : Seat}
    (hdupb : (db.bookings.any (fun b =>
      b.user_id == user_id && b.status == "confirmed" &&
        db.seats.any (fun s2 => s2.id == b.seat_id && s2.slot_id == seat.slot_id))) = false)
    (hconf : confirmedForSeat db seat_id = false) :
    create_booking_tail db user_id seat_id now newId seat =
      ⟨.ok ⟨newId, user_id, seat_id, "confirmed", now⟩,
        { db with bookings := db.bookings ++ [⟨newId, user_id, seat_id, "confirmed", now⟩] },
        []⟩ := by
  simp [create_booking_tail, hdupb, hconf]

/-- Helper: the existential reading of the duplicate-per-slot query. -/
theorem dup_query_eq_true {db : DB} {user_id : Nat} {seat : Seat}
    (hdup : ∃ b ∈ db.bookings, b.user_id = user_id ∧ b.status = "confirmed" ∧
      ∃ s2 ∈ db.seats, s2.id = b.seat_id ∧ s2.slot_id = seat.slot_id) :
    (db.bookings.any (fun b =>
      b.user_id == user_id && b.status == "confirmed" &&
        db.seats.any (fun s2 => s2.id == b.seat_id && s2.slot_id == seat.slot_id))) = true := by
  simp only [List.any_eq_true, Bool.and_eq_true, beq_iff_eq]
  obtain ⟨b, hb, h1, h2, s2, hsm, h3, h4⟩ := hdup
  exact ⟨b, hb, ⟨h1, h2⟩, ⟨s2, hsm, h3, h4⟩⟩

/-- Claim C5: create_booking checks its preconditions in source order, each
reporting the distinct failure of the first check that fails: (1) missing
seat reports 404; (2) a non-available seat reports 409 regardless of later
conditions; (3) an available seat of an existing started slot reports 400;
(4) with the first three checks passing, a confirmed booking of the same
user on any seat of the same slot reports 409 and the state is unchanged,
so the user cannot obtain a second confirmed booking for the slot. -/
theorem C5_precondition_order (db : DB) (user_id seat_id : Nat) (now : Int)
    (newId : Nat) :
    (db.seats.find? (fun s => s.id == seat_id) = none →
      (create_booking db user_id seat_id now newId).outcome =
        .error (404, "Seat not found")) ∧
    (∀ seat, db.seats.find? (fun s => s.id == seat_id) = some seat →
      seat.status ≠ "available" →
      (create_booking db user_id seat_id now newId).outcome =
        .error (409, "Seat is not available")) ∧
    (∀ seat slot, db.seats.find? (fun s => s.id == seat_id) = some seat →
      seat.status = "available" →
      db.slots.find? (fun sl => sl.id == seat.slot_id) = some slot →
      slot.start_time ≤ now →
      (create_booking db user_id seat_id now newId).outcome =
        .error (400, "Cannot book seats for past time slots")) ∧
    (∀ seat, db.seats.find? (fun s => s.id == seat_id) = some seat →
      seat.status = "available" →
      (∀ slot, db.slots.find? (fun sl => sl.id == seat.slot_id) = some slot →
        now < slot.start_time) →
      (∃ b ∈ db.bookings, b.user_id = user_id ∧ b.status = "confirmed" ∧
        ∃ s2 ∈ db.seats, s2.id = b.seat_id ∧ s2.slot_id = seat.slot_id) →
      (create_booking db user_id seat_id now newId).outcome =
        .error (409, "You already have a booking for this time slot") ∧
      (create_booking db user_id seat_id now newId).db = db) := by
  refine ⟨?_, ?_, ?_, ?_⟩
  · intro h
    simp [create_booking, h]
  · intro seat hf hs
    simp [create_booking, hf, hs]
  · intro seat slot hf hs hsl hpast
    simp [create_booking, hf, hs, hsl, hpast]
  · intro seat hf hs hns hdup
    have hdupb := dup_query_eq_true hdup
    cases hsl : db.slots.find? (fun sl => sl.id == seat.slot_id) with
    | none =>
      simp [create_booking, hf, hs, hsl, create_booking_tail_dup hdupb]
    | some slot =>
      have hlt := hns slot hsl
      simp [create_booking, hf, hs, hsl, not_le.mpr hlt,
        create_booking_tail_dup hdupb]

/-- Witness for C5: the four orderings exercised on dbMix, each hypothesis
discharged at a concrete input. -/
theorem C5_witness :
    (create_booking dbMix 10 99 5 77).outcome = .error (404, "Seat not found") ∧
    (create_booking dbMix 10 2 5 77).outcome =
      .error (409, "Seat is not available") ∧
    (create_booking dbMix 10 3 5 77).outcome =
      .error (400, "Cannot book seats for past time slots") ∧
    (create_booking dbMix 10 4 5 77).outcome =
      .error (409, "You already have a booking for this time slot") ∧
    (create_booking dbMix 10 4 5 77).db = dbMix :=
  ⟨(C5_precondition_order dbMix 10 99 5 77).1 (by decide),
   (C5_precondition_order dbMix 10 2 5 77).2.1
     ⟨2, 100, "A2", "maintenance", "standard"⟩ (by decide) (by decide),
   (C5_precondition_order dbMix 10 3 5 77).2.2.1
     ⟨3, 101, "B1", "available", "standard"⟩ ⟨101, 1, 3, 4, 1, 0⟩
     (by decide) (by decide) (by decide) (by decide),
   ((C5_precondition_order dbMix 10 4 5 77).2.2.2
     ⟨4, 100, "A3", "available", "standard"⟩ (by decide) (by decide)
     (by intro slot h; cases h; decide) (by decide)).1,
   ((C5_precondition_order dbMix 10 4 5 77).2.2.2
     ⟨4, 100, "A3", "available", "standard"⟩ (by decide) (by decide)
     (by intro slot h; cases h; decide) (by decide)).2⟩

/-- Claim C6 (counterexample): a reserve on a booked seat of a started slot
reports the availability Conflict (409), not the past-slot InvalidState
(400), so the claimed regardless-of-availability behavior is false. -/
theorem C6_counterexample :
    (create_booking dbPastBooked 10 1 10 77).outcome =
      .error (409, "Seat is not available") ∧
    (create_booking dbPastBooked 10 1 10 77).outcome ≠
      .error (400, "Cannot book seats for past time slots") := by
  decide

/-- Claim C6 (amended): a reserve on an AVAILABLE seat whose owning slot
exists and has start_time at or before the call time fails with the
past-slot 400 and leaves the state unchanged; for a non-available seat the
earlier availability check fires instead (see the counterexample). -/
theorem C6_past_slot_invalid_state (db : DB) (user_id seat_id : Nat) (now : Int)
    (newId : Nat) (seat : Seat) (slot : Slot)
    (hf : db.seats.find? (fun s => s.id == seat_id) = some seat)
    (hs : seat.status = "available")
    (hsl : db.slots.find? (fun sl => sl.id == seat.slot_id) = some slot)
    (hpast : slot.start_time ≤ now) :
    (create_booking db user_id seat_id now newId).outcome =
      .error (400, "Cannot book seats for past time slots") ∧
    (create_booking db user_id seat_id now newId).db = db := by
  simp [create_booking, hf, hs, hsl, hpast]

/-- Witness for C6: the available seat of dbPastAvail on its started slot. -/
theorem C6_witness :
    (create_booking dbPastAvail 10 1 10 77).outcome =
      .error (400, "Cannot book seats for past time slots") ∧
    (create_booking dbPastAvail 10 1 10 77).db = dbPastAvail :=
  C6_past_slot_invalid_state dbPastAvail 10 1 10 77
    ⟨1, 100, "A1", "available", "standard"⟩ ⟨100, 1, 5, 6, 1, 0⟩
    (by decide) (by decide) (by decide) (by decide)

/-- Claim C10: when the slot_id of an available seat references no Slot
row, create_booking skips the past-slot check entirely: the call is the
tail that goes straight to the duplicate-booking check, and when that
passes (and the commit does not hit the unique index) it creates the
confirmed booking; it fails neither NotFound nor InvalidState on account
of the missing slot. -/
theorem C10_dangling_slot_reserve (db : DB) (user_id seat_id : Nat) (now : Int)
    (newId : Nat) (seat : Seat)
    (hf : db.seats.find? (fun s => s.id == seat_id) = some seat)
    (hs : seat.status = "available")
    (hnsl : db.slots.find? (fun sl => sl.id == seat.slot_id) = none) :
    create_booking db user_id seat_id now newId =
      create_booking_tail db user_id seat_id now newId seat ∧
    ((db.bookings.any (fun b =>
        b.user_id == user_id && b.status == "confirmed" &&
          db.seats.any (fun s2 => s2.id == b.seat_id && s2.slot_id == seat.slot_id))) = false →
      confirmedForSeat db seat_id = false →
      (create_booking db user_id seat_id now newId).outcome =
        .ok ⟨newId, user_id, seat_id, "confirmed", now⟩ ∧
      (create_booking db user_id seat_id now newId).db.bookings =
        db.bookings ++ [⟨newId, user_id, seat_id, "confirmed", now⟩]) := by
  have heq : create_booking db user_id seat_id now newId =
      create_booking_tail db user_id seat_id now newId seat := by
    simp [create_booking, hf, hs, hnsl]
  refine ⟨heq, ?_⟩
  intro hdupb hconf
  rw [heq, create_booking_tail_success hdupb hconf]
  exact ⟨rfl, rfl⟩

/-- Witness for C10: the dangling-slot seat of dbDangling is reserved
successfully. -/
theorem C10_witness :
    create_booking dbDangling 10 1 5 77 =
      create_booking_tail dbDangling 10 1 5 77 ⟨1, 100, "A1", "available", "standard"⟩ ∧
    (create_booking dbDangling 10 1 5 77).outcome =
      .ok ⟨77, 10, 1, "confirmed", 5⟩ ∧
    (create_booking dbDangling 10 1 5 77).db.bookings =
      dbDangling.bookings ++ [⟨77, 10, 1, "confirmed", 5⟩] :=
  ⟨(C10_dangling_slot_reserve dbDangling 10 1 5 77
      ⟨1, 100, "A1", "available", "standard"⟩ (by decide) (by decide) (by decide)).1,
   (C10_dangling_slot_reserve dbDangling 10 1 5 77
      ⟨1, 100, "A1", "available", "standard"⟩ (by decide) (by decide) (by decide)).2
     (by decide) (by decide)⟩

/-- Claim C8 (counterexample): supplying the empty string as seat_type does
not restrict the result (Python `if seat_type:` is false for the empty
string), so seats whose seat_type is not the supplied value are returned. -/
theorem C8_counterexample :
    ¬ ∀ s ∈ (get_available_seats_for_slot dbTwoSeats 100 (some "")).1,
        s.seat_type = "" := by
  decide

/-- Claim C8 (amended): get_available_seats_for_slot returns exactly the
seats of the slot with status available, restricted to the given seat_type
when a NON-EMPTY one is supplied (an empty-string seat_type is treated
like no filter), ordered by seat_number ascending, and modifies no
state. -/
theorem C8_available_seats (db : DB) (slot_id : Nat) (st : Option String) :
    (∀ s, s ∈ (get_available_seats_for_slot db slot_id st).1 ↔
      s ∈ db.seats ∧ s.slot_id = slot_id ∧ s.status = "available" ∧
        ∀ t, st = some t → t ≠ "" → s.seat_type = t) ∧
    (get_available_seats_for_slot db slot_id st).1.Pairwise seatNumberLe ∧
    (get_available_seats_for_slot db slot_id st).2 = db := by
  refine ⟨?_, ?_, rfl⟩
  · intro s
    unfold get_available_seats_for_slot
    cases st with
    | none =>
      simp [List.mem_filter, and_assoc]
    | some t =>
      by_cases ht : t = ""
      · subst ht
        simp [List.mem_filter, and_assoc]
      · have htb : (t == "") = false := by simp [ht]
        simp only [htb, Bool.false_eq_true, if_false, List.mem_insertionSort,
          List.mem_filter, Bool.and_eq_true, beq_iff_eq, decide_eq_true_eq]
        constructor
        · rintro ⟨⟨hm, h1, h2⟩, h3⟩
          exact ⟨hm, h1, h2, fun t' ht' _ => by cases ht'; exact h3⟩
        · rintro ⟨hm, h1, h2, h3⟩
          exact ⟨⟨hm, h1, h2⟩, h3 t rfl ht⟩
  · exact List.sorted_insertionSort seatNumberLe _

/-- Witness for C9: the concrete resource database dbResource at call time
8, with the unique-slot-id hypothesis discharged by computation. -/
theorem C9_witness :
    ((get_resource_with_slots dbResource 1 none none 8).1 = none ↔
      dbResource.resources.find? (fun r => r.id == 1) = none) ∧
    ∀ res groups,
      (get_resource_with_slots dbResource 1 none none 8).1 = some (res, groups) →
      (∀ g ∈ groups,
          (none : Option Int).getD 8 ≤ g.1.start_time ∧
          (∀ e, (none : Option Int) = some e → g.1.end_time ≤ e) ∧
          ∃ s ∈ dbResource.seats, s.slot_id = g.1.id ∧ s.status = "available") ∧
      groups.Pairwise (fun g1 g2 => g1.1.start_time ≤ g2.1.start_time) ∧
      ∀ g ∈ groups, g.2.Pairwise seatNumberLe :=
  C9_resource_with_open_slots dbResource 1 none none 8 (by decide)

/-! Supporting development: the at-most-one-confirmed-booking-per-seat
invariant (the predicate of the unique index) is preserved by every
modelled operation, which is why the concrete run of
C1_second_reserve_is_500_not_conflict ends with a single confirmed
booking: the index gate in the commit is what saves the invariant, not
the availability check. -/

/-- At most one confirmed booking references any seat. -/
def atMostOneConfirmedPerSeat (db : DB) : Prop :=
  db.bookings.Pairwise (fun b1 b2 =>
    b1.status = "confirmed" → b2.status = "confirmed" → b1.seat_id ≠ b2.seat_id)

/-- Appending a confirmed booking for a seat with no confirmed booking yet
keeps the invariant. -/
theorem invariant_append {db : DB} {nb : Booking}
    (hinv : atMostOneConfirmedPerSeat db)
    (hno : confirmedForSeat db nb.seat_id = false) :
    (db.bookings ++ [nb]).Pairwise (fun b1 b2 =>
      b1.status = "confirmed" → b2.status = "confirmed" → b1.seat_id ≠ b2.seat_id) := by
  rw [List.pairwise_append]
  refine ⟨hinv, List.pairwise_singleton _ _, ?_⟩
  intro b1 hb1 b2 hb2
  rw [List.mem_singleton] at hb2
  subst hb2
  intro hc1 _ heq
  have hall := List.any_eq_false.mp hno b1 hb1
  simp only [Bool.and_eq_true, beq_iff_eq, not_and] at hall
  exact hall heq hc1

theorem create_booking_tail_preserves_invariant (db : DB)
    (user_id seat_id : Nat) (now : Int) (newId : Nat) (seat : Seat)
    (hinv : atMostOneConfirmedPerSeat db) :
    atMostOneConfirmedPerSeat (create_booking_tail db user_id seat_id now newId seat).db := by
  unfold create_booking_tail
  split
  · exact hinv
  · split
    · exact hinv
    next hconf =>
      have hno : confirmedForSeat db seat_id = false := by
        simpa using hconf
      exact invariant_append hinv hno

theorem create_booking_preserves_invariant (db : DB) (user_id seat_id : Nat)
    (now : Int) (newId : Nat) (hinv : atMostOneConfirmedPerSeat db) :
    atMostOneConfirmedPerSeat (create_booking db user_id seat_id now newId).db := by
  unfold create_booking
  split
  · exact hinv
  · split
    · exact hinv
    · split
      · split
        · exact hinv
        · exact create_booking_tail_preserves_invariant _ _ _ _ _ _ hinv
      · exact create_booking_tail_preserves_invariant _ _ _ _ _ _ hinv

theorem book_seat_tail_preserves_invariant (db : DB)
    (seat_id user_id : Nat) (now : Int) (newId : Nat) (seat : Seat)
    (locked : List Nat) (hinv : atMostOneConfirmedPerSeat db) :
    atMostOneConfirmedPerSeat
      (book_seat_tail db seat_id user_id now newId seat locked).db := by
  unfold book_seat_tail
  split
  · exact hinv
  · split
    · exact hinv
    next hconf =>
      have hno : confirmedForSeat db seat_id = false := by
        simpa using hconf
      exact invariant_append hinv hno

theorem book_seat_with_lock_preserves_invariant (db : DB)
    (seat_id user_id : Nat) (now : Int) (newId : Nat)
    (hinv : atMostOneConfirmedPerSeat db) :
    atMostOneConfirmedPerSeat (book_seat_with_lock db seat_id user_id now newId).db := by
  unfold book_seat_with_lock
  split
  · exact hinv
  · split
    · exact hinv
    · split
      · split
        · exact hinv
        · exact book_seat_tail_preserves_invariant _ _ _ _ _ _ _ hinv
      · exact book_seat_tail_preserves_invariant _ _ _ _ _ _ _ hinv

theorem cancel_booking_preserves_invariant (db : DB) (booking_id user_id : Nat)
    (hinv : atMostOneConfirmedPerSeat db) :
    atMostOneConfirmedPerSeat (cancel_booking db booking_id user_id).2 := by
  unfold cancel_booking
  split
  · exact hinv
  · split <;> exact hinv

theorem release_seat_preserves_invariant (db : DB) (seat_id : Nat)
    (hinv : atMostOneConfirmedPerSeat db) :
    atMostOneConfirmedPerSeat (release_seat db seat_id).2 := by
  unfold release_seat
  split
  · exact hinv
  · split
    · exact hinv
    · exact hinv

theorem queries_preserve_state (db : DB) (slot_id rid : Nat)
    (st : Option String) (sd ed : Option Int) (now : Int) :
    (get_available_seats_for_slot db slot_id st).2 = db ∧
    (get_resource_with_slots db rid sd ed now).2 = db := by
  constructor
  · rfl
  · unfold get_resource_with_slots
    split <;> rfl
